import Mathlib

/-!
Shallow embedding of the form-validation module of the ThermoCool landing
page (file `js/form-validation.js`): the three validation regexes
(`VALIDATION_PATTERNS`), the static rule table (`FIELD_RULES`), the pure
field evaluator (`validateField`), and the form-level aggregation
(`validateForm` together with `validateAndDisplayError`, whose DOM side
effects are modelled as an explicit list of display actions).

Modelling conventions:
* JavaScript strings are Lean `String`s; `value.trim()` is `jsTrim`, which
  drops the characters JavaScript treats as whitespace from both ends.
* A JavaScript regex of shape `/^[class]+$/` is a Boolean full-match test:
  nonempty and every character in the class.  The anchored email regex is
  embedded compositionally (see `emailTest`).
* A JavaScript value that is `null` or `undefined` or a string is `ErrVal`;
  missing keys of an `errorMessages` object are `Option.none` and read back
  as `ErrVal.undef` (`msgVal`).
* `rules.pattern` is an arbitrary test function `String → Bool`, matching
  the fact that the code accepts any regex object there.
-/

/-- Characters matched by the JavaScript whitespace class `\s` (also the
set removed by `String.prototype.trim`). -/
def jsWhitespace (c : Char) : Bool :=
  c = ' ' || c = '\t' || c = '\n' || c = '\r' ||
  c = Char.ofNat 11 || c = Char.ofNat 12 ||
  c = Char.ofNat 0xa0 || c = Char.ofNat 0x1680 ||
  (0x2000 ≤ c.toNat && c.toNat ≤ 0x200a) ||
  c = Char.ofNat 0x2028 || c = Char.ofNat 0x2029 ||
  c = Char.ofNat 0x202f || c = Char.ofNat 0x205f ||
  c = Char.ofNat 0x3000 || c = Char.ofNat 0xfeff

/-- Embedding of `value.trim()`: drop leading and trailing JavaScript
whitespace. -/
def jsTrim (s : String) : String :=
  (((s.toList.dropWhile jsWhitespace).reverse.dropWhile jsWhitespace).reverse).asString

/-- Splits a character list at every occurrence of `sep`, keeping empty
segments, like `String.prototype.split` with a one-character separator. -/
def splitOnChar (sep : Char) : List Char → List (List Char)
  | [] => [[]]
  | c :: rest =>
    let r := splitOnChar sep rest
    if c = sep then [] :: r
    else
      match r with
      | [] => [[c]]
      | h :: t => (c :: h) :: t

/-- Character class of the local part of `VALIDATION_PATTERNS.EMAIL`:
letters, digits, and the specials `.!#$%&'*+/=?^_`{|}~-` (the apostrophe,
backtick and braces are written via their code points). -/
def emailLocalChar (c : Char) : Bool :=
  c.isAlphanum ||
  [ '.', '!', '#', '$', '%', '&', Char.ofNat 39, '*', '+', '/', '=', '?',
    '^', '_', Char.ofNat 96, Char.ofNat 123, '|', Char.ofNat 125, '~', '-'
  ].contains c

/-- Interior character of a domain label: letter, digit, or hyphen. -/
def labelChar (c : Char) : Bool :=
  c.isAlphanum || c = '-'

/-- Full match of the domain-label group
`[a-zA-Z0-9](?:[a-zA-Z0-9-]{0,61}[a-zA-Z0-9])?` of the email regex: a
single alphanumeric character, or 2 to 63 characters that start and end
alphanumeric with letters, digits or hyphens in between. -/
def isLabel : List Char → Bool
  | [] => false
  | [c] => c.isAlphanum
  | c :: rest =>
    c.isAlphanum && rest.length ≤ 62 &&
    rest.dropLast.all labelChar &&
    (match rest.getLast? with
     | some d => d.isAlphanum
     | none => false)

/-- Embedding of `VALIDATION_PATTERNS.EMAIL.test` on a trimmed value.  The
regex is `^local+@label(\.label)*$`.  Since neither the local character
class nor the label classes contain `@`, a matching string has exactly one
`@`; since labels never contain `.`, the domain matches the
`label(\.label)*` group iff splitting it at every dot yields valid labels
(note the group is starred, so a domain consisting of a single label - no
dot at all - is accepted). -/
def emailTest (s : String) : Bool :=
  match splitOnChar '@' s.toList with
  | [localPart, domain] =>
    !localPart.isEmpty && localPart.all emailLocalChar &&
    (splitOnChar '.' domain).all isLabel
  | _ => false

/-- Embedding of `VALIDATION_PATTERNS.PHONE.test` (`/^[\d\s\-\(\)\+\.]+$/`)
on a trimmed value: nonempty, every character a digit, whitespace, hyphen,
parenthesis, plus or dot. -/
def phoneTest (s : String) : Bool :=
  !s.toList.isEmpty && s.toList.all fun c =>
    c.isDigit || jsWhitespace c || c = '-' || c = '(' || c = ')' || c = '+' || c = '.'

/-- Embedding of `VALIDATION_PATTERNS.NAME.test` (`/^[a-zA-Z\s\-'\.]+$/`)
on a trimmed value: nonempty, every character an ASCII letter, whitespace,
hyphen, apostrophe or dot. -/
def nameTest (s : String) : Bool :=
  !s.toList.isEmpty && s.toList.all fun c =>
    c.isAlpha || jsWhitespace c || c = '-' || c = Char.ofNat 39 || c = '.'

/-- Value of the `error` property of a validation result: JavaScript
`null`, `undefined`, or a message string. -/
inductive ErrVal
  | null
  | undef
  | msg (s : String)
deriving DecidableEq, Repr

/-- Reading a message slot of an `errorMessages` object: a present key
gives its string, an absent key gives `undefined`. -/
def msgVal : Option String → ErrVal
  | some s => ErrVal.msg s
  | none => ErrVal.undef

/-- The `errorMessages` object of a rule set: one optional message string
per violation kind. -/
structure ErrorMessages where
  required : Option String
  pattern : Option String
  minLength : Option String
  maxLength : Option String

/-- A field rule set, the values of the `FIELD_RULES` table: required
flag, optional pattern (an arbitrary test on the trimmed value), optional
length bounds, and the per-violation messages. -/
structure Rules where
  required : Bool
  pattern : Option (String → Bool)
  minLength : Option Nat
  maxLength : Option Nat
  errorMessages : ErrorMessages

/-- A validation result `{ isValid, error }`. -/
structure VResult where
  isValid : Bool
  error : ErrVal
deriving DecidableEq, Repr

/-- Count of ASCII digit characters, the length of
`value.replace(/\D/g, '')`. -/
def digitCount (s : String) : Nat :=
  (s.toList.filter Char.isDigit).length

/-- Effective length used by the length checks of `validateField`: digit
count for `tel` fields, string length otherwise. -/
def effectiveLength (fieldType value : String) : Nat :=
  if fieldType = "tel" then digitCount value else value.length

/-- Condition of the pattern check,
`rules.pattern && !rules.pattern.test(value)`. -/
def patternFails (p? : Option (String → Bool)) (value : String) : Bool :=
  match p? with
  | some p => !(p value)
  | none => false

/-- Condition of the minimum-length check: a bound is set and the
effective length falls below it. -/
def minLengthFails (m? : Option Nat) (fieldType value : String) : Bool :=
  match m? with
  | some m => decide (effectiveLength fieldType value < m)
  | none => false

/-- Condition of the maximum-length check: a bound is set and the
effective length exceeds it. -/
def maxLengthFails (m? : Option Nat) (fieldType value : String) : Bool :=
  match m? with
  | some m => decide (m < effectiveLength fieldType value)
  | none => false

/-- Embedding of `validateField(field, rules)`.  The DOM field is reduced
to the two properties the function reads, `field.value` and `field.type`.
The source binds `const value = field.value.trim()` once; here the pure
`jsTrim fieldValue` is written at each use.  The checks run in source
order: required, empty-and-optional early pass, pattern, minLength,
maxLength. -/
def validateField (fieldValue fieldType : String) (rules : Rules) : VResult :=
  if rules.required = true ∧ jsTrim fieldValue = "" then
    { isValid := false, error := msgVal rules.errorMessages.required }
  else if jsTrim fieldValue = "" ∧ rules.required = false then
    { isValid := true, error := ErrVal.null }
  else if patternFails rules.pattern (jsTrim fieldValue) then
    { isValid := false, error := msgVal rules.errorMessages.pattern }
  else if minLengthFails rules.minLength fieldType (jsTrim fieldValue) then
    { isValid := false, error := msgVal rules.errorMessages.minLength }
  else if maxLengthFails rules.maxLength fieldType (jsTrim fieldValue) then
    { isValid := false, error := msgVal rules.errorMessages.maxLength }
  else
    { isValid := true, error := ErrVal.null }

/-- The `name` entry of `FIELD_RULES`. -/
def nameRules : Rules where
  required := true
  pattern := some nameTest
  minLength := some 2
  maxLength := some 100
  errorMessages :=
    { required := some "This field is required"
      pattern := some "Please enter a valid name (letters, spaces, hyphens, and apostrophes only)"
      minLength := some "Name must be at least 2 characters long"
      maxLength := some "Name must not exceed 100 characters" }

/-- The `email` entry of `FIELD_RULES` (note: no `minLength`). -/
def emailRules : Rules where
  required := true
  pattern := some emailTest
  minLength := none
  maxLength := some 254
  errorMessages :=
    { required := some "This field is required"
      pattern := some "Please enter a valid email address"
      minLength := none
      maxLength := some "Email must not exceed 254 characters" }

/-- The `phone` entry of `FIELD_RULES`. -/
def phoneRules : Rules where
  required := true
  pattern := some phoneTest
  minLength := some 10
  maxLength := some 20
  errorMessages :=
    { required := some "This field is required"
      pattern := some "Please enter a valid phone number"
      minLength := some "Phone number must be at least 10 digits"
      maxLength := some "Phone number must not exceed 20 digits" }

/-- The `service` entry of `FIELD_RULES`: only the required check. -/
def serviceRules : Rules where
  required := true
  pattern := none
  minLength := none
  maxLength := none
  errorMessages :=
    { required := some "This field is required"
      pattern := none
      minLength := none
      maxLength := none }

/-- The `message` entry of `FIELD_RULES`: no pattern, length 10 to 1000. -/
def messageRules : Rules where
  required := true
  pattern := none
  minLength := some 10
  maxLength := some 1000
  errorMessages :=
    { required := some "This field is required"
      pattern := none
      minLength := some "Message must be at least 10 characters long"
      maxLength := some "Message must not exceed 1000 characters" }

/-- Embedding of the `FIELD_RULES` table as a lookup by field name. -/
def FIELD_RULES (fieldName : String) : Option Rules :=
  if fieldName = "name" then some nameRules
  else if fieldName = "email" then some emailRules
  else if fieldName = "phone" then some phoneRules
  else if fieldName = "service" then some serviceRules
  else if fieldName = "message" then some messageRules
  else none

/-- A DOM form field reduced to the three properties the module reads:
`name`, `value` and `type`. -/
structure FormField where
  name : String
  value : String
  type : String

/-- A DOM side effect of `validateAndDisplayError`: `showError(field,
message)` or `clearError(field)`, recorded against the field name. -/
inductive DisplayAction
  | show (fieldName : String) (message : ErrVal)
  | clear (fieldName : String)
deriving DecidableEq, Repr

/-- Guard of the per-field loop bodies,
`field.name && FIELD_RULES[field.name]`. -/
def fieldRegistered (f : FormField) : Bool :=
  f.name != "" && (FIELD_RULES f.name).isSome

/-- Embedding of `validateAndDisplayError(field)`: look up the rule set by
field name (no rules means valid, no display action), run `validateField`,
and record the `showError` or `clearError` call as a display action. -/
def validateAndDisplayError (f : FormField) : Bool × List DisplayAction :=
  match FIELD_RULES f.name with
  | none => (true, [])
  | some rules =>
    let result := validateField f.value f.type rules
    if result.isValid then (true, [DisplayAction.clear f.name])
    else (false, [DisplayAction.show f.name result.error])

/-- Loop of `validateForm`: fold over the form's fields threading the
`isValid` accumulator and appending the display actions of every field
that has a name and a registered rule set. -/
def validateFormGo : Bool → List DisplayAction → List FormField → Bool × List DisplayAction
  | acc, log, [] => (acc, log)
  | acc, log, f :: rest =>
    if fieldRegistered f then
      let step := validateAndDisplayError f
      validateFormGo (acc && step.1) (log ++ step.2) rest
    else
      validateFormGo acc log rest

/-- Embedding of `validateForm(form)`: the form is its list of fields (the
`querySelectorAll` result, in document order); returns the aggregate
validity together with the display actions performed. -/
def validateForm (fields : List FormField) : Bool × List DisplayAction :=
  validateFormGo true [] fields

/-- The data-model invariant stated by the spec for rule sets: whenever
the `pattern`, `minLength` or `maxLength` rule is present, the
corresponding message exists in `errorMessages`. -/
def specInvariant (r : Rules) : Bool :=
  (!r.pattern.isSome || r.errorMessages.pattern.isSome) &&
  (!r.minLength.isSome || r.errorMessages.minLength.isSome) &&
  (!r.maxLength.isSome || r.errorMessages.maxLength.isSome)

/-- Strengthening of `specInvariant` that also demands a `required`
message when the rule set is required: a message exists for every enabled
check. -/
def fullMessagesInvariant (r : Rules) : Bool :=
  (!r.required || r.errorMessages.required.isSome) && specInvariant r

/-- The message strings present in a rule set's `errorMessages` mapping. -/
def messageStrings (r : Rules) : List String :=
  [r.errorMessages.required, r.errorMessages.pattern,
   r.errorMessages.minLength, r.errorMessages.maxLength].filterMap id

/-- Result contract of `validateField` at one input: `isValid` holds iff
`error` is `null`, and an invalid result carries one of the rule set's
message strings. -/
def resultContract (v t : String) (r : Rules) : Prop :=
  ((validateField v t r).isValid = true ↔ (validateField v t r).error = ErrVal.null) ∧
  ((validateField v t r).isValid = false →
    ∃ s, (validateField v t r).error = ErrVal.msg s ∧ s ∈ messageStrings r)

/-- Structured-result shape of `validateField` at one input: either a pass
with a `null` error, or a failure whose error is read from the
`errorMessages` slot of the check that failed. -/
def structuredResult (v t : String) (r : Rules) : Prop :=
  ((validateField v t r).isValid = true ∧ (validateField v t r).error = ErrVal.null) ∨
  ((validateField v t r).isValid = false ∧
    ((validateField v t r).error = msgVal r.errorMessages.required ∨
     (validateField v t r).error = msgVal r.errorMessages.pattern ∨
     (validateField v t r).error = msgVal r.errorMessages.minLength ∨
     (validateField v t r).error = msgVal r.errorMessages.maxLength))

/-- Rule set used by the repository's optional-field test: not required,
lowercase-letters pattern, and only a pattern message. -/
def optionalRules : Rules where
  required := false
  pattern := some fun s => !s.toList.isEmpty && s.toList.all Char.isLower
  minLength := none
  maxLength := none
  errorMessages :=
    { required := none
      pattern := some "Invalid format"
      minLength := none
      maxLength := none }

/-- Rule set with a required flag but an empty message table, exercising a
missing `required` message. -/
def noMessageRules : Rules where
  required := true
  pattern := none
  minLength := none
  maxLength := none
  errorMessages :=
    { required := none
      pattern := none
      minLength := none
      maxLength := none }

theorem jsTrim_eq_empty (s : String) (h : s.toList.all jsWhitespace = true) :
    jsTrim s = "" := by
  unfold jsTrim
  have h1 : s.toList.dropWhile jsWhitespace = [] := by
    rw [List.dropWhile_eq_nil_iff]
    intro x hx
    exact List.all_eq_true.mp h x hx
  rw [h1]
  decide

/-- C1: evaluated at the spec's scenario-B input, the code accepts the
address `user@example`: the email pattern's dot-label group is starred, so
a domain with no dot (no TLD) matches, and the result is valid with a
`null` error - not the pattern violation the spec demands. -/
theorem email_without_tld_accepted :
    validateField "user@example" "email" emailRules
      = { isValid := true, error := ErrVal.null } := by decide

/-- C2: whenever a rule set has a pattern and both length bounds and the
trimmed value is nonempty but fails the pattern, `validateField` returns
the pattern-violation message (never a length message): the pattern check
runs before both length checks. -/
theorem pattern_violation_wins (v t : String) (r : Rules) (p : String → Bool)
    (hp : r.pattern = some p)
    (hmin : r.minLength.isSome = true) (hmax : r.maxLength.isSome = true)
    (hnz : jsTrim v ≠ "") (hfail : p (jsTrim v) = false) :
    validateField v t r = { isValid := false, error := msgVal r.errorMessages.pattern } := by
  simp [validateField, patternFails, hp, hfail, hnz]

theorem pattern_violation_wins_witness :
    validateField "abc" "tel" phoneRules
      = { isValid := false, error := ErrVal.msg "Please enter a valid phone number" } :=
  pattern_violation_wins "abc" "tel" phoneRules phoneTest rfl rfl rfl
    (by decide) (by decide)

/-- C3: for every required rule set, a value that is empty or all
whitespace trims to the empty string and hits the required check first, so
the result is invalid and carries the rule set's required message,
whatever other rules are present. -/
theorem required_blocks_blank_values (v t : String) (r : Rules)
    (hreq : r.required = true) (hws : v.toList.all jsWhitespace = true) :
    validateField v t r = { isValid := false, error := msgVal r.errorMessages.required } := by
  have hv : jsTrim v = "" := jsTrim_eq_empty v hws
  simp [validateField, hv, hreq]

theorem required_blocks_blank_values_witness :
    validateField "   " "text" serviceRules
      = { isValid := false, error := ErrVal.msg "This field is required" } :=
  required_blocks_blank_values "   " "text" serviceRules rfl (by decide)

/-- C6: for every non-required rule set, a value whose trimmed form is
empty passes with a `null` error regardless of pattern or length rules:
the empty-and-optional early return fires before any other check. -/
theorem optional_empty_passes (v t : String) (r : Rules)
    (hreq : r.required = false) (hv : jsTrim v = "") :
    validateField v t r = { isValid := true, error := ErrVal.null } := by
  simp [validateField, hv, hreq]

theorem optional_empty_passes_witness :
    validateField "" "text" optionalRules = { isValid := true, error := ErrVal.null } :=
  optional_empty_passes "" "text" optionalRules rfl (by decide)

/-- C7: `validateField` is a pure function of its three arguments - the
source reads only `field.value`, `field.type` and the frozen rule tables -
so evaluating the same inputs twice yields identical results. -/
theorem validateField_deterministic (v t : String) (r : Rules) :
    validateField v t r = validateField v t r := rfl

theorem telLengthAux (v : String) (r : Rules)
    (hnz : jsTrim v ≠ "") (hpat : patternFails r.pattern (jsTrim v) = false) :
    (validateField v "tel" r).isValid = true ↔
      ((∀ m, r.minLength = some m → m ≤ digitCount (jsTrim v)) ∧
       (∀ m, r.maxLength = some m → digitCount (jsTrim v) ≤ m)) := by
  have heff : effectiveLength "tel" (jsTrim v) = digitCount (jsTrim v) := by
    simp [effectiveLength]
  rcases hmin : r.minLength with _ | m <;> rcases hmax : r.maxLength with _ | m' <;>
    simp [validateField, hnz, hpat, minLengthFails, maxLengthFails, hmin, hmax, heff,
      apply_ite VResult.isValid]

/-- C4: for `tel`-typed fields the length checks compare the bounds
against the digit count of the trimmed value (not its character length),
and in particular the 17-character, 11-digit value `+1 (234) 567-8900`
passes the phone rule set's 10 to 20 bound. -/
theorem tel_length_counts_digits :
    (∀ (v : String) (r : Rules), jsTrim v ≠ "" →
      patternFails r.pattern (jsTrim v) = false →
      ((validateField v "tel" r).isValid = true ↔
        ((∀ m, r.minLength = some m → m ≤ digitCount (jsTrim v)) ∧
         (∀ m, r.maxLength = some m → digitCount (jsTrim v) ≤ m)))) ∧
    validateField "+1 (234) 567-8900" "tel" phoneRules
      = { isValid := true, error := ErrVal.null } :=
  ⟨telLengthAux, by decide⟩

theorem tel_length_counts_digits_witness :
    (validateField "123-456" "tel" phoneRules).isValid = true ↔
      ((∀ m, phoneRules.minLength = some m → m ≤ digitCount (jsTrim "123-456")) ∧
       (∀ m, phoneRules.maxLength = some m → digitCount (jsTrim "123-456") ≤ m)) :=
  tel_length_counts_digits.1 "123-456" phoneRules (by decide) (by decide)

/-- C8: every rule set registered in the `FIELD_RULES` table satisfies the
data-model invariant: a present `pattern`, `minLength` or `maxLength` rule
comes with the corresponding message in `errorMessages`. -/
theorem field_rules_satisfy_invariant (n : String) (r : Rules)
    (h : FIELD_RULES n = some r) : specInvariant r = true := by
  unfold FIELD_RULES at h
  split_ifs at h <;> injection h with h <;> subst h <;> decide

theorem field_rules_satisfy_invariant_witness :
    FIELD_RULES "email" = some emailRules ∧ specInvariant emailRules = true :=
  ⟨rfl, field_rules_satisfy_invariant "email" emailRules rfl⟩

/-- C9: `validateField` is a total function - every branch of the source
returns; the embedding has no exception path - and for every input
(under the rule-set message invariant, as the spec assumes) it yields a
structured `{ isValid, error }` result in which each failure is reported
through the `errorMessages` slot of the failed check. -/
theorem validateField_total_structured (v t : String) (r : Rules)
    (hinv : specInvariant r = true) : structuredResult v t r := by
  unfold structuredResult validateField
  split_ifs <;> simp

theorem validateField_total_structured_witness :
    specInvariant serviceRules = true ∧ structuredResult "" "text" serviceRules :=
  ⟨by decide, validateField_total_structured "" "text" serviceRules (by decide)⟩

theorem isSome_of_patternFails {p? : Option (String → Bool)} {v : String}
    (h : patternFails p? v = true) : p?.isSome = true := by
  cases p? <;> simp [patternFails] at h ⊢

theorem isSome_of_minLengthFails {m? : Option Nat} {t v : String}
    (h : minLengthFails m? t v = true) : m?.isSome = true := by
  cases m? <;> simp [minLengthFails] at h ⊢

theorem isSome_of_maxLengthFails {m? : Option Nat} {t v : String}
    (h : maxLengthFails m? t v = true) : m?.isSome = true := by
  cases m? <;> simp [maxLengthFails] at h ⊢

theorem mem_messageStrings {r : Rules} {s : String}
    (h : r.errorMessages.required = some s ∨ r.errorMessages.pattern = some s ∨
         r.errorMessages.minLength = some s ∨ r.errorMessages.maxLength = some s) :
    s ∈ messageStrings r := by
  rcases h with h | h | h | h <;>
    exact List.mem_filterMap.mpr ⟨_, by simp, h⟩

/-- C10 counterexample: for the rule set with `required` set but an empty
message table and an empty value, the result is invalid with an
`undefined` error, which is not one of the rule set's message strings, so
the unrestricted claim fails. -/
theorem result_contract_fails_without_messages :
    ¬ resultContract "" "text" noMessageRules := by
  intro h
  obtain ⟨s, hs, _⟩ := h.2 (by decide)
  have hu : (validateField "" "text" noMessageRules).error = ErrVal.undef := by decide
  rw [hu] at hs
  exact ErrVal.noConfusion hs

/-- C10 amended: for every rule set whose `errorMessages` supplies a
message for each enabled check (`required` when the field is required,
and `pattern`/`minLength`/`maxLength` when the rule is present), the
result of `validateField` satisfies the contract: `isValid` holds iff the
error is `null`, and an invalid result carries one of the rule set's
message strings. -/
theorem result_contract_with_messages (v t : String) (r : Rules)
    (hinv : fullMessagesInvariant r = true) : resultContract v t r := by
  simp only [fullMessagesInvariant, specInvariant, Bool.and_eq_true, Bool.or_eq_true,
    Bool.not_eq_true'] at hinv
  obtain ⟨hreq, ⟨hpat, hmin⟩, hmax⟩ := hinv
  unfold resultContract validateField
  split_ifs with h1 h2 h3 h4 h5
  · obtain ⟨s, hs⟩ := Option.isSome_iff_exists.mp (hreq.resolve_left (by simp [h1.1]))
    exact ⟨by simp [hs, msgVal], fun _ =>
      ⟨s, by simp [hs, msgVal], mem_messageStrings (Or.inl hs)⟩⟩
  · exact ⟨by simp, by simp⟩
  · obtain ⟨s, hs⟩ := Option.isSome_iff_exists.mp
      (hpat.resolve_left (by simp [isSome_of_patternFails h3]))
    exact ⟨by simp [hs, msgVal], fun _ =>
      ⟨s, by simp [hs, msgVal], mem_messageStrings (Or.inr (Or.inl hs))⟩⟩
  · obtain ⟨s, hs⟩ := Option.isSome_iff_exists.mp
      (hmin.resolve_left (by simp [isSome_of_minLengthFails h4]))
    exact ⟨by simp [hs, msgVal], fun _ =>
      ⟨s, by simp [hs, msgVal], mem_messageStrings (Or.inr (Or.inr (Or.inl hs)))⟩⟩
  · obtain ⟨s, hs⟩ := Option.isSome_iff_exists.mp
      (hmax.resolve_left (by simp [isSome_of_maxLengthFails h5]))
    exact ⟨by simp [hs, msgVal], fun _ =>
      ⟨s, by simp [hs, msgVal], mem_messageStrings (Or.inr (Or.inr (Or.inr hs)))⟩⟩
  · exact ⟨by simp, by simp⟩

theorem result_contract_with_messages_witness :
    fullMessagesInvariant serviceRules = true ∧ resultContract "  " "text" serviceRules :=
  ⟨by decide, result_contract_with_messages "  " "text" serviceRules (by decide)⟩

theorem FIELD_RULES_name_ne_empty {n : String} {r : Rules}
    (h : FIELD_RULES n = some r) : n ≠ "" := by
  intro he
  subst he
  exact Option.noConfusion h

theorem fieldRegistered_of_rules {f : FormField} {r : Rules}
    (h : FIELD_RULES f.name = some r) : fieldRegistered f = true := by
  simp [fieldRegistered, h, FIELD_RULES_name_ne_empty h]

theorem vde_fst {f : FormField} {r : Rules} (h : FIELD_RULES f.name = some r) :
    (validateAndDisplayError f).1 = (validateField f.value f.type r).isValid := by
  simp only [validateAndDisplayError, h]
  by_cases hv : (validateField f.value f.type r).isValid = true
  · simp [hv]
  · simp only [Bool.not_eq_true] at hv
    simp [hv]

theorem vde_snd_invalid {f : FormField} {r : Rules} (h : FIELD_RULES f.name = some r)
    (hbad : (validateField f.value f.type r).isValid = false) :
    (validateAndDisplayError f).2
      = [DisplayAction.show f.name (validateField f.value f.type r).error] := by
  simp [validateAndDisplayError, h, hbad]

theorem validateFormGo_fst (l : List FormField) (acc : Bool) (log : List DisplayAction) :
    (validateFormGo acc log l).1 =
      (acc && l.all fun f => !fieldRegistered f || (validateAndDisplayError f).1) := by
  induction l generalizing acc log with
  | nil => simp [validateFormGo]
  | cons f rest ih =>
    by_cases h : fieldRegistered f = true
    · simp [validateFormGo, h, ih, Bool.and_assoc]
    · simp only [Bool.not_eq_true] at h
      simp [validateFormGo, h, ih]

theorem validateFormGo_snd (l : List FormField) (acc : Bool) (log : List DisplayAction) :
    (validateFormGo acc log l).2 =
      log ++ l.flatMap fun f =>
        if fieldRegistered f then (validateAndDisplayError f).2 else [] := by
  induction l generalizing acc log with
  | nil => simp [validateFormGo]
  | cons f rest ih =>
    by_cases h : fieldRegistered f = true
    · simp [validateFormGo, h, ih]
    · simp only [Bool.not_eq_true] at h
      simp [validateFormGo, h, ih]

/-- C5: form-level aggregation is valid iff every field whose name has a
registered rule set passes `validateField`, and the loop does not stop at
the first failure: every registered invalid field still gets its
`showError` display action. -/
theorem form_valid_iff_all_fields_pass (fields : List FormField) :
    ((validateForm fields).1 = true ↔
      ∀ f ∈ fields, ∀ r, FIELD_RULES f.name = some r →
        (validateField f.value f.type r).isValid = true) ∧
    (∀ f ∈ fields, ∀ r, FIELD_RULES f.name = some r →
      (validateField f.value f.type r).isValid = false →
        DisplayAction.show f.name (validateField f.value f.type r).error
          ∈ (validateForm fields).2) := by
  constructor
  · rw [validateForm, validateFormGo_fst, Bool.true_and, List.all_eq_true]
    constructor
    · intro hall f hf r hr
      have := hall f hf
      rw [fieldRegistered_of_rules hr, vde_fst hr] at this
      simpa using this
    · intro hall f hf
      rcases hfr : FIELD_RULES f.name with _ | r
      · simp [fieldRegistered, hfr]
      · rw [fieldRegistered_of_rules hfr, vde_fst hfr]
        simpa using hall f hf r hfr
  · intro f hf r hr hbad
    rw [validateForm, validateFormGo_snd, List.nil_append]
    refine List.mem_flatMap.mpr ⟨f, hf, ?_⟩
    rw [if_pos (fieldRegistered_of_rules hr), vde_snd_invalid hr hbad]
    exact List.mem_singleton.mpr rfl

theorem form_valid_iff_all_fields_pass_witness :
    DisplayAction.show "name" (validateField "" "text" nameRules).error
      ∈ (validateForm
          [{ name := "name", value := "", type := "text" },
           { name := "email", value := "john@example.com", type := "email" }]).2 :=
  (form_valid_iff_all_fields_pass _).2
    { name := "name", value := "", type := "text" } (by simp) nameRules rfl (by decide)
